import Mathlib

/-!
Verification of the `cache` package: an in-process key-value cache with
per-entry absolute expiration timestamps, a background sweeper, and a
gob-based save/load codec.

Shallow embedding conventions:
* Go `time.Duration` and `int64` nanosecond timestamps become `Int`; the
  current clock reading `time.Now().UnixNano()` is passed explicitly as a
  `now : Int` argument wherever the Go code reads the clock.
* The Go `map[string]Item` becomes an association list
  `List (String × Item V)`; the Go map invariant (unique keys) is carried
  as a `List.Nodup` hypothesis on the key list where a proof needs it.
* Values (`interface{}`) become a type parameter `V`.
* The write half of `sync.RWMutex` is modelled for single-goroutine runs as
  a `Bool` (`true` = write-locked); acquiring it while it is already held
  blocks forever, which we model as the `Option` result `none`.
-/

/-- A stored value together with its absolute expiration timestamp
(`0` = never expires). Mirrors `type Item struct`. -/
structure Item (V : Type) where
  Object : V
  Expiration : Int
deriving DecidableEq, Repr

/-- Embedding of `func (item Item) Expired() bool`:
`if item.Expiration == 0 { return false }; return time.Now().UnixNano() > item.Expiration`,
with the clock reading passed in as `now`. -/
def Item.Expired {V : Type} (item : Item V) (now : Int) : Bool :=
  if item.Expiration = 0 then false
  else decide (now > item.Expiration)

/-- `NoExpiration time.Duration = -1`. -/
def NoExpiration : Int := -1

/-- `DefaultExpiration time.Duration = 0`. -/
def DefaultExpiration : Int := 0

/-- Lookup in the association-list model of the Go map: the value at the
first occurrence of the key, `none` when absent. -/
def mapLookup {V : Type} (k : String) : List (String × Item V) → Option (Item V)
  | [] => none
  | (q, v) :: rest => if q = k then some v else mapLookup k rest

/-- Go map assignment `m[k] = v`: replace the entry at the first occurrence
of `k`, or append a fresh entry when `k` is absent. -/
def mapInsert {V : Type} (k : String) (v : Item V) :
    List (String × Item V) → List (String × Item V)
  | [] => [(k, v)]
  | (q, w) :: rest => if q = k then (k, v) :: rest else (q, w) :: mapInsert k v rest

/-- The key list of the association-list model of the Go map. -/
def mapKeys {V : Type} (l : List (String × Item V)) : List String :=
  l.map Prod.fst

/-- Go `delete(m, k)`: remove the entries with key `k`
(at most one under the Go map invariant). -/
def mapErase {V : Type} (k : String) (l : List (String × Item V)) :
    List (String × Item V) :=
  l.filter (fun kv => decide (kv.1 ≠ k))

/-- The `Cache` struct. The `sync.RWMutex` and the `stopGc` channel are
concurrency primitives and are not part of the data state; the mutex is
modelled separately where a claim is about locking. -/
structure Cache (V : Type) where
  defaultExpiration : Int
  items : List (String × Item V)
  gcInterval : Int
deriving DecidableEq, Repr

/-- The duration actually used by `Set`:
`if d == DefaultExpiration { d = c.defaultExpiration }`. -/
def resolveDuration (defExp d : Int) : Int :=
  if d = DefaultExpiration then defExp else d

/-- The expiration computed by `Set`: `var e int64;
if d > 0 { e = time.Now().Add(d).UnixNano() }`, i.e. `now + d`,
after the default-duration substitution. -/
def computeExpiration (defExp d now : Int) : Int :=
  if resolveDuration defExp d > 0 then now + resolveDuration defExp d else 0

/-- Embedding of `func (c *Cache) Set(k string, v interface{}, d time.Duration)`
(the data-state effect; its lock use is `Cache.SetLocked`). -/
def Cache.Set {V : Type} (c : Cache V) (k : String) (v : V) (d now : Int) :
    Cache V :=
  { c with items := mapInsert k ⟨v, computeExpiration c.defaultExpiration d now⟩ c.items }

/-- Embedding of the unexported `func (c *Cache) get(k string) (interface{}, bool)`:
lookup, then refuse expired entries. `none` models `(nil, false)`. -/
def Cache.get {V : Type} (c : Cache V) (k : String) (now : Int) : Option V :=
  match mapLookup k c.items with
  | none => none
  | some item => if item.Expired now then none else some item.Object

/-- Embedding of the exported `func (c *Cache) Get(k string) (interface{}, bool)`.
The body only reads `c.items`; we return the resulting cache state alongside
the answer so that the absence of mutation is part of the statement. -/
def Cache.Get {V : Type} (c : Cache V) (k : String) (now : Int) :
    Option V × Cache V :=
  (match mapLookup k c.items with
   | none => none
   | some item => if item.Expired now then none else some item.Object, c)

/-- Embedding of `func (c *Cache) DeleteExpired()`: one eviction pass at
clock reading `now`, deleting every entry with `Expiration > 0 && now > Expiration`.
The Go range-and-delete loop over the (unique-keyed) map is a filter. -/
def Cache.DeleteExpired {V : Type} (c : Cache V) (now : Int) : Cache V :=
  { c with items :=
      c.items.filter (fun kv => !(decide (kv.2.Expiration > 0) && decide (now > kv.2.Expiration))) }

/-- Embedding of `func (c *Cache) Delete(k string)`. -/
def Cache.Delete {V : Type} (c : Cache V) (k : String) : Cache V :=
  { c with items := mapErase k c.items }

/-- Embedding of `func (c *Cache) Count() int`. -/
def Cache.Count {V : Type} (c : Cache V) : Nat :=
  c.items.length

/-- Embedding of `func (c *Cache) Flush()`. -/
def Cache.Flush {V : Type} (c : Cache V) : Cache V :=
  { c with items := [] }

/-- Embedding of `func NewCache(defaultExpiration, gcInterval time.Duration) *Cache`:
the fresh store starts with an empty item map. (Starting the sweeper
goroutine is a concurrency side effect outside the data state.) -/
def NewCache (V : Type) (defaultExpiration gcInterval : Int) : Cache V :=
  { defaultExpiration := defaultExpiration, items := [], gcInterval := gcInterval }

/-! ### The write lock, for the claims about `Add`, `Replace` and `Set` locking

`c.mu.Lock()` on a `sync.RWMutex` is not reentrant: a goroutine that calls
`Lock()` while it already holds the write lock blocks forever. For a single
goroutine the lock is a `Bool` and a blocked call is `none`. -/

/-- Acquire the write lock: blocks forever (`none`) when already held. -/
def mutexLock (held : Bool) : Option Bool :=
  if held then none else some true

/-- `Cache.Set` with its lock use: `c.mu.Lock()` then the map write, then the
deferred `c.mu.Unlock()`. Returns the new data state and lock state, or
`none` when the `Lock()` call blocks forever. -/
def Cache.SetLocked {V : Type} (c : Cache V) (held : Bool) (k : String) (v : V)
    (d now : Int) : Option (Cache V × Bool) :=
  match mutexLock held with
  | none => none
  | some _ => some (c.Set k v d now, false)

/-- Embedding of `func (c *Cache) Add(...) error` with its lock use:
`c.mu.Lock()`, the unexported `get`, and on the not-found path a call of the
exported `Set` — which itself calls `c.mu.Lock()` — before `c.mu.Unlock()`.
Result: `none` when some step blocks forever, otherwise the final data
state, lock state, and the returned error (`some msg`) or `nil` (`none`). -/
def Cache.AddLocked {V : Type} (c : Cache V) (held : Bool) (k : String) (v : V)
    (d now : Int) : Option (Cache V × Bool × Option String) :=
  match mutexLock held with
  | none => none
  | some h1 =>
    match c.get k now with
    | some _ => some (c, false, some ("item " ++ k ++ " already exists"))
    | none =>
      match c.SetLocked h1 k v d now with
      | none => none
      | some (c1, _) => some (c1, false, none)

/-- Embedding of `func (c *Cache) Replace(...) error` with its lock use:
`c.mu.Lock()`, the unexported `get`, and on the found path a call of the
exported `Set` — which itself calls `c.mu.Lock()` — before `c.mu.Unlock()`. -/
def Cache.ReplaceLocked {V : Type} (c : Cache V) (held : Bool) (k : String) (v : V)
    (d now : Int) : Option (Cache V × Bool × Option String) :=
  match mutexLock held with
  | none => none
  | some h1 =>
    match c.get k now with
    | none => some (c, false, some ("Item " ++ k ++ " doesnt exist"))
    | some _ =>
      match c.SetLocked h1 k v d now with
      | none => none
      | some (c1, _) => some (c1, false, none)

/-! ### The codec -/

/-- The byte stream produced by `Save`. The gob encoding of the item map is
modelled as the map itself: for values whose concrete types are registered,
`gob` is a lossless codec of the full snapshot, so the observable content of
a successfully encoded stream is exactly the encoded map. -/
structure GobStream (V : Type) where
  data : List (String × Item V)
deriving DecidableEq, Repr

/-- Embedding of `func (c *Cache) Save(w io.Writer) error` on its success
path: every value type registered, `enc.Encode(&c.items)` writes the full
snapshot of the item map to the stream. -/
def Cache.Save {V : Type} (c : Cache V) : GobStream V :=
  ⟨c.items⟩

/-- What `dec.Decode(&items)` produced inside `Load`: either a decoded item
map or a decode error. -/
inductive DecodeResult (V : Type) where
  | ok (items : List (String × Item V))
  | fail (msg : String)
deriving DecidableEq, Repr

/-- The merge loop of `Load`:
`for k, v := range items { ov, found := c.items[k]; if !found || ov.Expired() { c.items[k] = v } }`. -/
def loadMerge {V : Type} (now : Int) :
    List (String × Item V) → List (String × Item V) → List (String × Item V)
  | [], its => its
  | (k, v) :: rest, its =>
      loadMerge now rest
        (match mapLookup k its with
         | none => mapInsert k v its
         | some ov => if ov.Expired now then mapInsert k v its else its)

/-- Embedding of `func (c *Cache) Load(r io.Reader) error`: on decode success
merge the decoded map into the live one; on decode failure leave the state
alone and return the error. -/
def Cache.Load {V : Type} (c : Cache V) (r : DecodeResult V) (now : Int) :
    Cache V × Option String :=
  match r with
  | DecodeResult.ok items => ({ c with items := loadMerge now items c.items }, none)
  | DecodeResult.fail msg => (c, some msg)

/-! ### The file wrapper `SaveToFile` -/

/-- The observable content of the target file after a file operation. -/
inductive FileContent (V : Type) where
  | noFile
  | emptyFile
  | snapshot (its : List (String × Item V))
deriving DecidableEq, Repr

/-- Embedding of `func (c *Cache) SaveToFile(file string) error`:
`f, err := os.Create(file); if err != nil { return err }; return f.Close()`.
`os.Create` truncates the file to empty; the body returns `f.Close()` without
ever invoking `Save`, so on a successful create the file is left empty.
`createFails` models `os.Create` failing. Result: final file content and the
returned error. -/
def Cache.SaveToFile {V : Type} (c : Cache V) (createFails : Bool) :
    FileContent V × Option String :=
  if createFails then (FileContent.noFile, some "create error")
  else (FileContent.emptyFile, none)

/-! ### Association-list map lemmas -/

theorem mapKeys_nil {V : Type} : mapKeys ([] : List (String × Item V)) = [] := rfl

theorem mapKeys_cons {V : Type} (a : String) (w : Item V)
    (l : List (String × Item V)) : mapKeys ((a, w) :: l) = a :: mapKeys l := rfl

theorem mapLookup_nil {V : Type} (k : String) :
    mapLookup k ([] : List (String × Item V)) = none := rfl

theorem mapLookup_cons_self {V : Type} (k : String) (w : Item V)
    (tl : List (String × Item V)) : mapLookup k ((k, w) :: tl) = some w := by
  simp [mapLookup]

theorem mapLookup_cons_ne {V : Type} {a k : String} (w : Item V)
    (tl : List (String × Item V)) (h : a ≠ k) :
    mapLookup k ((a, w) :: tl) = mapLookup k tl := by
  simp [mapLookup, h]

theorem mapLookup_insert_self {V : Type} (k : String) (v : Item V)
    (l : List (String × Item V)) : mapLookup k (mapInsert k v l) = some v := by
  induction l with
  | nil => simp [mapInsert, mapLookup]
  | cons hd tl ih =>
    obtain ⟨a, w⟩ := hd
    by_cases ha : a = k
    · subst ha
      rw [mapInsert, if_pos rfl, mapLookup_cons_self]
    · rw [mapInsert, if_neg ha, mapLookup_cons_ne w _ ha]
      exact ih

theorem mapLookup_insert_ne {V : Type} {q k : String} (v : Item V)
    (l : List (String × Item V)) (h : q ≠ k) :
    mapLookup q (mapInsert k v l) = mapLookup q l := by
  have hkq : k ≠ q := fun hh => h hh.symm
  induction l with
  | nil => simp [mapInsert, mapLookup, hkq]
  | cons hd tl ih =>
    obtain ⟨a, w⟩ := hd
    by_cases ha : a = k
    · subst ha
      rw [mapInsert, if_pos rfl, mapLookup_cons_ne v tl hkq,
        mapLookup_cons_ne w tl hkq]
    · rw [mapInsert, if_neg ha]
      by_cases hq : a = q
      · subst hq
        rw [mapLookup_cons_self, mapLookup_cons_self]
      · rw [mapLookup_cons_ne _ _ hq, mapLookup_cons_ne _ _ hq]
        exact ih

theorem mapKeys_insert {V : Type} (k : String) (v : Item V)
    (l : List (String × Item V)) :
    mapKeys (mapInsert k v l) =
      if k ∈ mapKeys l then mapKeys l else mapKeys l ++ [k] := by
  induction l with
  | nil => simp [mapInsert, mapKeys]
  | cons hd tl ih =>
    obtain ⟨a, w⟩ := hd
    by_cases ha : a = k
    · subst ha
      rw [mapInsert, if_pos rfl, mapKeys_cons, mapKeys_cons]
      simp
    · have hka : k ≠ a := fun hh => ha hh.symm
      rw [mapInsert, if_neg ha, mapKeys_cons, mapKeys_cons, ih]
      by_cases hm : k ∈ mapKeys tl
      · simp [hm, hka]
      · simp [hm, hka]

theorem mapKeys_insert_nodup {V : Type} (k : String) (v : Item V)
    {l : List (String × Item V)} (hnd : (mapKeys l).Nodup) :
    (mapKeys (mapInsert k v l)).Nodup := by
  rw [mapKeys_insert]
  by_cases hm : k ∈ mapKeys l
  · simpa [hm] using hnd
  · simp [hm, List.nodup_append, hnd]

theorem mapLookup_eq_none_of_not_mem {V : Type} {k : String}
    {l : List (String × Item V)} (h : k ∉ mapKeys l) :
    mapLookup k l = none := by
  induction l with
  | nil => rfl
  | cons hd tl ih =>
    obtain ⟨a, w⟩ := hd
    rw [mapKeys_cons, List.mem_cons] at h
    push_neg at h
    rw [mapLookup_cons_ne w tl (fun hh => h.1 hh.symm)]
    exact ih h.2

theorem mem_of_mapLookup_eq_some {V : Type} {k : String} {v : Item V}
    {l : List (String × Item V)} (h : mapLookup k l = some v) : (k, v) ∈ l := by
  induction l with
  | nil => simp [mapLookup] at h
  | cons hd tl ih =>
    obtain ⟨a, w⟩ := hd
    by_cases ha : a = k
    · subst ha
      rw [mapLookup_cons_self] at h
      rw [← Option.some_inj.mp h]
      exact List.mem_cons_self _ _
    · rw [mapLookup_cons_ne w tl ha] at h
      exact List.mem_cons_of_mem _ (ih h)

theorem mapKeys_mem_of_filter {V : Type} {k : String}
    (p : String × Item V → Bool) {l : List (String × Item V)}
    (h : k ∈ mapKeys (l.filter p)) : k ∈ mapKeys l := by
  induction l with
  | nil => simpa [mapKeys] using h
  | cons hd tl ih =>
    obtain ⟨a, w⟩ := hd
    rw [mapKeys_cons, List.mem_cons]
    by_cases hp : p (a, w)
    · rw [List.filter_cons, if_pos hp, mapKeys_cons, List.mem_cons] at h
      rcases h with h | h
      · exact Or.inl h
      · exact Or.inr (ih h)
    · rw [List.filter_cons, if_neg (by simpa using hp)] at h
      exact Or.inr (ih h)

theorem mapLookup_filter_keep {V : Type} {k : String} {v : Item V}
    (p : String × Item V → Bool) {l : List (String × Item V)}
    (h : mapLookup k l = some v) (hp : p (k, v) = true) :
    mapLookup k (l.filter p) = some v := by
  induction l with
  | nil => simp [mapLookup] at h
  | cons hd tl ih =>
    obtain ⟨a, w⟩ := hd
    by_cases ha : a = k
    · subst ha
      rw [mapLookup_cons_self] at h
      rw [← Option.some_inj.mp h] at hp ⊢
      rw [List.filter_cons, if_pos hp, mapLookup_cons_self]
    · rw [mapLookup_cons_ne w tl ha] at h
      by_cases hw : p (a, w)
      · rw [List.filter_cons, if_pos hw, mapLookup_cons_ne _ _ ha]
        exact ih h
      · rw [List.filter_cons, if_neg (by simpa using hw)]
        exact ih h

theorem mapLookup_filter_drop {V : Type} {k : String} {v : Item V}
    (p : String × Item V → Bool) {l : List (String × Item V)}
    (hnd : (mapKeys l).Nodup) (h : mapLookup k l = some v)
    (hp : p (k, v) = false) :
    mapLookup k (l.filter p) = none := by
  induction l with
  | nil => simp [mapLookup] at h
  | cons hd tl ih =>
    obtain ⟨a, w⟩ := hd
    rw [mapKeys_cons, List.nodup_cons] at hnd
    by_cases ha : a = k
    · subst ha
      rw [mapLookup_cons_self] at h
      rw [← Option.some_inj.mp h] at hp
      rw [List.filter_cons, if_neg (by simpa using hp)]
      exact mapLookup_eq_none_of_not_mem
        (fun hm => hnd.1 (mapKeys_mem_of_filter p hm))
    · rw [mapLookup_cons_ne w tl ha] at h
      by_cases hw : p (a, w)
      · rw [List.filter_cons, if_pos hw, mapLookup_cons_ne _ _ ha]
        exact ih hnd.2 h
      · rw [List.filter_cons, if_neg (by simpa using hw)]
        exact ih hnd.2 h

theorem mem_mapKeys_of_mem {V : Type} {k : String} {v : Item V}
    {l : List (String × Item V)} (h : (k, v) ∈ l) : k ∈ mapKeys l := by
  rw [mapKeys]
  exact List.mem_map_of_mem Prod.fst h

theorem length_filter_add_countP {V : Type} (p : String × Item V → Bool)
    (l : List (String × Item V)) :
    (l.filter p).length + l.countP (fun x => !(p x)) = l.length := by
  induction l with
  | nil => rfl
  | cons hd tl ih =>
    simp only [List.filter_cons, List.countP_cons, List.length_cons]
    by_cases hp : p hd = true
    · simp only [hp, if_true, Bool.not_true, List.length_cons]
      simp only [Bool.false_eq_true, if_false]
      omega
    · simp only [Bool.not_eq_true] at hp
      simp only [hp, Bool.false_eq_true, if_false, Bool.not_false, if_true]
      omega

/-! ### Lemmas about the `Load` merge loop -/

theorem loadMerge_lookup_not_mem {V : Type} (now : Int) {k : String}
    {dec : List (String × Item V)} (its : List (String × Item V))
    (h : k ∉ mapKeys dec) :
    mapLookup k (loadMerge now dec its) = mapLookup k its := by
  induction dec generalizing its with
  | nil => rfl
  | cons hd tl ih =>
    obtain ⟨a, w⟩ := hd
    rw [mapKeys_cons, List.mem_cons] at h
    push_neg at h
    have hka : k ≠ a := h.1
    cases hml : mapLookup a its with
    | none =>
      simp only [loadMerge, hml]
      rw [ih _ h.2, mapLookup_insert_ne w its hka]
    | some ov =>
      simp only [loadMerge, hml]
      by_cases he : ov.Expired now = true
      · rw [if_pos he, ih _ h.2, mapLookup_insert_ne w its hka]
      · rw [if_neg he, ih _ h.2]

theorem loadMerge_lookup_mem {V : Type} (now : Int) {k : String} {v : Item V}
    {dec : List (String × Item V)} (its : List (String × Item V))
    (hnd : (mapKeys dec).Nodup) (hm : (k, v) ∈ dec) :
    mapLookup k (loadMerge now dec its) =
      (match mapLookup k its with
       | none => some v
       | some ov => if ov.Expired now then some v else some ov) := by
  induction dec generalizing its with
  | nil => simp at hm
  | cons hd tl ih =>
    obtain ⟨a, w⟩ := hd
    rw [mapKeys_cons, List.nodup_cons] at hnd
    rcases List.mem_cons.mp hm with heq | hmem
    · injection heq with h1 h2
      subst h1
      subst h2
      cases hml : mapLookup k its with
      | none =>
        simp only [loadMerge, hml]
        rw [loadMerge_lookup_not_mem now _ hnd.1, mapLookup_insert_self]
      | some ov =>
        simp only [loadMerge, hml]
        by_cases he : ov.Expired now = true
        · rw [if_pos he, loadMerge_lookup_not_mem now _ hnd.1,
            mapLookup_insert_self, if_pos he]
        · rw [if_neg he, loadMerge_lookup_not_mem now _ hnd.1, hml, if_neg he]
    · have hka : a ≠ k := fun hh => hnd.1 (hh ▸ mem_mapKeys_of_mem hmem)
      have hak : k ≠ a := Ne.symm hka
      cases hml : mapLookup a its with
      | none =>
        simp only [loadMerge, hml]
        rw [ih _ hnd.2 hmem, mapLookup_insert_ne w its hak]
      | some ov =>
        simp only [loadMerge, hml]
        by_cases he : ov.Expired now = true
        · rw [if_pos he, ih _ hnd.2 hmem, mapLookup_insert_ne w its hak]
        · rw [if_neg he, ih _ hnd.2 hmem]

theorem exists_mem_of_mem_mapKeys {V : Type} {k : String}
    {l : List (String × Item V)} (h : k ∈ mapKeys l) : ∃ v, (k, v) ∈ l := by
  rw [mapKeys] at h
  obtain ⟨⟨a, w⟩, hmem, heq⟩ := List.mem_map.mp h
  exact ⟨w, by rwa [show a = k from heq] at hmem⟩

theorem not_mem_mapKeys_of_lookup_none {V : Type} {k : String}
    {l : List (String × Item V)} (h : mapLookup k l = none) : k ∉ mapKeys l := by
  induction l with
  | nil => simp [mapKeys]
  | cons hd tl ih =>
    obtain ⟨a, w⟩ := hd
    by_cases ha : a = k
    · subst ha
      rw [mapLookup_cons_self] at h
      cases h
    · rw [mapLookup_cons_ne w tl ha] at h
      rw [mapKeys_cons, List.mem_cons]
      push_neg
      exact ⟨fun hh => ha hh.symm, ih h⟩

/-! ### Claim theorems -/

/-- C1. The claim states that `SaveToFile(p)` delegates to `Save`, so that
after a successful `SaveToFile` the file contains the serialized snapshot of
the entry map. The code contradicts this: on a cache holding one entry, a
successful `SaveToFile` leaves the created file empty (no error returned),
which is not the snapshot of the entry map. -/
theorem saveToFile_leaves_file_empty :
    (Cache.SaveToFile (⟨0, [("a", ⟨"x", 0⟩)], 0⟩ : Cache String) false).1
        = FileContent.emptyFile ∧
    (Cache.SaveToFile (⟨0, [("a", ⟨"x", 0⟩)], 0⟩ : Cache String) false).2 = none ∧
    FileContent.emptyFile ≠ FileContent.snapshot
        (⟨0, [("a", (⟨"x", 0⟩ : Item String))], 0⟩ : Cache String).items := by
  decide

/-- C2. When `Add` finds no live entry for `k`, and when `Replace` finds a
live entry, each invokes the exported `Set` while still holding the Store's
exclusive lock; `Set` then attempts to acquire that same non-reentrant lock,
so these success paths block forever (modelled as the result `none`). -/
theorem add_replace_self_deadlock {V : Type} (c : Cache V) (k : String) (v : V)
    (d now : Int) :
    (c.get k now = none → c.AddLocked false k v d now = none) ∧
    (∀ x, c.get k now = some x → c.ReplaceLocked false k v d now = none) := by
  constructor
  · intro h
    simp [Cache.AddLocked, Cache.SetLocked, mutexLock, h]
  · intro x h
    simp [Cache.ReplaceLocked, Cache.SetLocked, mutexLock, h]

/-- Witness for C2: on a fresh cache, `Add` of an absent key blocks; on a
cache with a live entry, `Replace` of that key blocks. -/
theorem add_replace_self_deadlock_witness :
    ((NewCache String 0 0).get "a" 0 = none ∧
      (NewCache String 0 0).AddLocked false "a" "x" NoExpiration 0 = none) ∧
    ((⟨0, [("b", ⟨"y", 0⟩)], 0⟩ : Cache String).get "b" 0 = some "y" ∧
      (⟨0, [("b", ⟨"y", 0⟩)], 0⟩ : Cache String).ReplaceLocked
          false "b" "z" NoExpiration 0 = none) :=
  ⟨⟨by decide, (add_replace_self_deadlock (NewCache String 0 0)
      "a" "x" NoExpiration 0).1 (by decide)⟩,
   ⟨by decide, (add_replace_self_deadlock (⟨0, [("b", ⟨"y", 0⟩)], 0⟩ : Cache String)
      "b" "z" NoExpiration 0).2 "y" (by decide)⟩⟩

/-- C5. The claim states that `Add` on an absent key succeeds and the value
is readable afterward. The code contradicts this: on a fresh cache with no
entry for `"a"`, `Add("a", "x", NoExpiration)` invokes `Set` while holding
the exclusive lock and blocks forever (result `none`), so it never succeeds
and nothing becomes readable. (The duplicate-key path does return the error
without calling `Set`.) -/
theorem add_on_absent_key_never_returns :
    (NewCache String 0 0).get "a" 0 = none ∧
    (NewCache String 0 0).AddLocked false "a" "x" NoExpiration 0 = none ∧
    (⟨0, [("c", ⟨"w", 0⟩)], 0⟩ : Cache String).AddLocked false "c" "q" NoExpiration 0
      = some ((⟨0, [("c", ⟨"w", 0⟩)], 0⟩ : Cache String), false,
              some "item c already exists") := by
  decide

/-- C6. The claim states that `Replace` on a live key succeeds and behaves as
`Set`. The code contradicts this: on a cache with a live entry for `"a"`,
`Replace("a", "y", NoExpiration)` invokes `Set` while holding the exclusive
lock and blocks forever (result `none`). (The missing-key path does return
the error without creating an entry.) -/
theorem replace_on_live_key_never_returns :
    (⟨0, [("a", ⟨"x", 0⟩)], 0⟩ : Cache String).get "a" 5 = some "x" ∧
    (⟨0, [("a", ⟨"x", 0⟩)], 0⟩ : Cache String).ReplaceLocked
        false "a" "y" NoExpiration 5 = none ∧
    (NewCache String 0 0).ReplaceLocked false "a" "y" NoExpiration 5
      = some (NewCache String 0 0, false, some "Item a doesnt exist") := by
  decide

/-- C7. `Set` with the no-expiration sentinel stores expiration `0`; with a
positive duration it stores `now + d`, computed once at insertion; and it
wholesale replaces any existing entry for `k`, so afterwards the lookup at
`k` is the new item, every other key is untouched, and keys stay unique. -/
theorem set_expiration_and_replace {V : Type} (c : Cache V) (k : String) (v : V)
    (d now : Int) (hnd : (mapKeys c.items).Nodup) :
    computeExpiration c.defaultExpiration NoExpiration now = 0 ∧
    (d > 0 → computeExpiration c.defaultExpiration d now = now + d) ∧
    (∀ q, mapLookup q (c.Set k v d now).items =
        if q = k then some ⟨v, computeExpiration c.defaultExpiration d now⟩
        else mapLookup q c.items) ∧
    (mapKeys (c.Set k v d now).items).Nodup := by
  refine ⟨?_, ?_, ?_, ?_⟩
  · simp [computeExpiration, resolveDuration, NoExpiration, DefaultExpiration]
  · intro hdp
    have h0 : ¬(d = DefaultExpiration) := by
      rw [DefaultExpiration]
      omega
    rw [computeExpiration, resolveDuration, if_neg h0, if_pos hdp]
  · intro q
    by_cases hq : q = k
    · subst hq
      simp [Cache.Set, mapLookup_insert_self]
    · simp [Cache.Set, hq, mapLookup_insert_ne _ _ hq]
  · exact mapKeys_insert_nodup _ _ hnd

/-- Witness for C7 at a fresh cache with default expiration `7`, inserting
key `"b"` with duration `5` at clock `100`. -/
theorem set_expiration_and_replace_witness :
    (mapKeys (NewCache String 7 0).items).Nodup ∧
    (computeExpiration (NewCache String 7 0).defaultExpiration NoExpiration 100 = 0 ∧
     ((5 : Int) > 0 →
        computeExpiration (NewCache String 7 0).defaultExpiration 5 100 = 100 + 5) ∧
     (∀ q, mapLookup q ((NewCache String 7 0).Set "b" "y" 5 100).items =
        if q = "b" then
          some ⟨"y", computeExpiration (NewCache String 7 0).defaultExpiration 5 100⟩
        else mapLookup q (NewCache String 7 0).items) ∧
     (mapKeys ((NewCache String 7 0).Set "b" "y" 5 100).items).Nodup) :=
  ⟨by decide, set_expiration_and_replace (NewCache String 7 0) "b" "y" 5 100 (by decide)⟩

/-- C8, counterexample. The claim states that `Expired` returns true exactly
when `expiration > 0` and `now > expiration`. The item with expiration `-1`
at clock `0` is reported expired by the code although its expiration is not
positive, refuting the claim as stated. -/
theorem expired_negative_expiration_cex :
    (Item.mk "x" (-1) : Item String).Expired 0 = true ∧
    ¬((Item.mk "x" (-1) : Item String).Expiration > 0 ∧
      (0 : Int) > (Item.mk "x" (-1) : Item String).Expiration) := by
  decide

/-- C8, amended: `Expired` returns true exactly when `expiration ≠ 0` and
`now > expiration`; in particular an item with expiration `0` is never
reported expired, regardless of elapsed time. -/
theorem expired_iff_nonzero_and_past {V : Type} (item : Item V) (now : Int) :
    (item.Expired now = true ↔ item.Expiration ≠ 0 ∧ now > item.Expiration) ∧
    (item.Expiration = 0 → item.Expired now = false) := by
  constructor
  · rw [Item.Expired]
    by_cases h0 : item.Expiration = 0
    · simp [h0]
    · simp [h0]
  · intro h0
    simp [Item.Expired, h0]

/-- Witness for C8 (amended): the never-expiring item is not expired at a
late clock, and an item with nonzero past expiration is expired. -/
theorem expired_iff_nonzero_and_past_witness :
    ((Item.mk "x" 0 : Item String).Expiration = 0 ∧
      (Item.mk "x" 0 : Item String).Expired 99 = false) ∧
    ((Item.mk "y" 3 : Item String).Expiration ≠ 0 ∧ (10 : Int) > 3 ∧
      (Item.mk "y" 3 : Item String).Expired 10 = true) :=
  ⟨⟨rfl, (expired_iff_nonzero_and_past (Item.mk "x" 0) 99).2 rfl⟩,
   ⟨by decide, by decide,
     (expired_iff_nonzero_and_past (Item.mk "y" 3) 10).1.mpr ⟨by decide, by decide⟩⟩⟩

/-- C9. `Get` reports not-found whenever the key is absent or its entry is
expired by the Expiration Policy (`expiration > 0` and `now > expiration`),
and `Get` does not mutate the entry map: the state coming out of `Get` is
the state that went in, so an expired-but-unswept entry stays counted. -/
theorem get_not_found_and_frame {V : Type} (c : Cache V) (k : String) (now : Int) :
    (mapLookup k c.items = none → (c.Get k now).1 = none) ∧
    (∀ item, mapLookup k c.items = some item →
        item.Expiration > 0 → now > item.Expiration → (c.Get k now).1 = none) ∧
    (c.Get k now).2 = c ∧
    (c.Get k now).2.Count = c.Count := by
  refine ⟨?_, ?_, rfl, rfl⟩
  · intro h
    simp [Cache.Get, h]
  · intro item h hpos hpast
    have he : item.Expired now = true := by
      rw [Item.Expired, if_neg (by omega)]
      exact decide_eq_true hpast
    simp [Cache.Get, h, he]

/-- Witness for C9 on a cache holding an entry for `"a"` that expired at
`3`, read at clock `10`: not-found, and the state and count are unchanged. -/
theorem get_not_found_and_frame_witness :
    (mapLookup "a" (⟨0, [("a", ⟨"x", 3⟩)], 0⟩ : Cache String).items = some ⟨"x", 3⟩ ∧
      (3 : Int) > 0 ∧ (10 : Int) > 3 ∧
      ((⟨0, [("a", ⟨"x", 3⟩)], 0⟩ : Cache String).Get "a" 10).1 = none) ∧
    ((⟨0, [("a", ⟨"x", 3⟩)], 0⟩ : Cache String).Get "a" 10).2
        = (⟨0, [("a", ⟨"x", 3⟩)], 0⟩ : Cache String) ∧
    ((⟨0, [("a", ⟨"x", 3⟩)], 0⟩ : Cache String).Get "a" 10).2.Count
        = (⟨0, [("a", ⟨"x", 3⟩)], 0⟩ : Cache String).Count :=
  ⟨⟨by decide, by decide, by decide,
     (get_not_found_and_frame (⟨0, [("a", ⟨"x", 3⟩)], 0⟩ : Cache String) "a" 10).2.1
       ⟨"x", 3⟩ (by decide) (by decide) (by decide)⟩,
   (get_not_found_and_frame (⟨0, [("a", ⟨"x", 3⟩)], 0⟩ : Cache String) "a" 10).2.2.1,
   (get_not_found_and_frame (⟨0, [("a", ⟨"x", 3⟩)], 0⟩ : Cache String) "a" 10).2.2.2⟩

/-- C3. For a successfully decoded map, the merge of `Load` replaces the
live entry for each decoded key only when the store has no entry for that
key or the live entry is currently expired; keys with a live, non-expired
entry and keys outside the decoded map are left untouched; and on decode
failure the entry map is unmodified and the decode error is returned. -/
theorem load_merge_policy {V : Type} (c : Cache V) (now : Int)
    (decoded : List (String × Item V)) (hnd : (mapKeys decoded).Nodup) :
    (∀ k v, (k, v) ∈ decoded → mapLookup k c.items = none →
        mapLookup k ((c.Load (DecodeResult.ok decoded) now).1).items = some v) ∧
    (∀ k v ov, (k, v) ∈ decoded → mapLookup k c.items = some ov →
        ov.Expired now = true →
        mapLookup k ((c.Load (DecodeResult.ok decoded) now).1).items = some v) ∧
    (∀ k ov, mapLookup k c.items = some ov → ov.Expired now = false →
        mapLookup k ((c.Load (DecodeResult.ok decoded) now).1).items = some ov) ∧
    (∀ k, k ∉ mapKeys decoded →
        mapLookup k ((c.Load (DecodeResult.ok decoded) now).1).items
          = mapLookup k c.items) ∧
    (∀ msg, c.Load (DecodeResult.fail msg) now = (c, some msg)) := by
  refine ⟨?_, ?_, ?_, ?_, fun msg => rfl⟩
  · intro k v hm hlook
    rw [show ((c.Load (DecodeResult.ok decoded) now).1).items
          = loadMerge now decoded c.items from rfl,
      loadMerge_lookup_mem now c.items hnd hm, hlook]
  · intro k v ov hm hlook he
    rw [show ((c.Load (DecodeResult.ok decoded) now).1).items
          = loadMerge now decoded c.items from rfl,
      loadMerge_lookup_mem now c.items hnd hm, hlook]
    simp only [he, if_true]
  · intro k ov hlook he
    by_cases hk : k ∈ mapKeys decoded
    · obtain ⟨v, hm⟩ := exists_mem_of_mem_mapKeys hk
      rw [show ((c.Load (DecodeResult.ok decoded) now).1).items
            = loadMerge now decoded c.items from rfl,
        loadMerge_lookup_mem now c.items hnd hm, hlook]
      simp only [he, Bool.false_eq_true, if_false]
    · rw [show ((c.Load (DecodeResult.ok decoded) now).1).items
            = loadMerge now decoded c.items from rfl,
        loadMerge_lookup_not_mem now c.items hk, hlook]
  · intro k hk
    exact loadMerge_lookup_not_mem now c.items hk

/-- Witness for C3: store holding a live never-expiring `"a"` and a `"b"`
expired at `3`, loaded at clock `10` from a decoded stream carrying `"a"`,
`"b"` and `"c"`. -/
theorem load_merge_policy_witness :
    (mapKeys [("a", (⟨"p", 0⟩ : Item String)), ("b", ⟨"q", 0⟩), ("c", ⟨"r", 0⟩)]).Nodup ∧
    ((∀ k v, (k, v) ∈ [("a", (⟨"p", 0⟩ : Item String)), ("b", ⟨"q", 0⟩), ("c", ⟨"r", 0⟩)] →
        mapLookup k (⟨0, [("a", ⟨"x", 0⟩), ("b", ⟨"y", 3⟩)], 0⟩ : Cache String).items = none →
        mapLookup k (((⟨0, [("a", ⟨"x", 0⟩), ("b", ⟨"y", 3⟩)], 0⟩ : Cache String).Load
            (DecodeResult.ok [("a", ⟨"p", 0⟩), ("b", ⟨"q", 0⟩), ("c", ⟨"r", 0⟩)]) 10).1).items
          = some v) ∧
     (∀ k v ov, (k, v) ∈ [("a", (⟨"p", 0⟩ : Item String)), ("b", ⟨"q", 0⟩), ("c", ⟨"r", 0⟩)] →
        mapLookup k (⟨0, [("a", ⟨"x", 0⟩), ("b", ⟨"y", 3⟩)], 0⟩ : Cache String).items = some ov →
        ov.Expired 10 = true →
        mapLookup k (((⟨0, [("a", ⟨"x", 0⟩), ("b", ⟨"y", 3⟩)], 0⟩ : Cache String).Load
            (DecodeResult.ok [("a", ⟨"p", 0⟩), ("b", ⟨"q", 0⟩), ("c", ⟨"r", 0⟩)]) 10).1).items
          = some v) ∧
     (∀ k ov, mapLookup k (⟨0, [("a", ⟨"x", 0⟩), ("b", ⟨"y", 3⟩)], 0⟩ : Cache String).items
            = some ov →
        ov.Expired 10 = false →
        mapLookup k (((⟨0, [("a", ⟨"x", 0⟩), ("b", ⟨"y", 3⟩)], 0⟩ : Cache String).Load
            (DecodeResult.ok [("a", ⟨"p", 0⟩), ("b", ⟨"q", 0⟩), ("c", ⟨"r", 0⟩)]) 10).1).items
          = some ov) ∧
     (∀ k, k ∉ mapKeys [("a", (⟨"p", 0⟩ : Item String)), ("b", ⟨"q", 0⟩), ("c", ⟨"r", 0⟩)] →
        mapLookup k (((⟨0, [("a", ⟨"x", 0⟩), ("b", ⟨"y", 3⟩)], 0⟩ : Cache String).Load
            (DecodeResult.ok [("a", ⟨"p", 0⟩), ("b", ⟨"q", 0⟩), ("c", ⟨"r", 0⟩)]) 10).1).items
          = mapLookup k (⟨0, [("a", ⟨"x", 0⟩), ("b", ⟨"y", 3⟩)], 0⟩ : Cache String).items) ∧
     (∀ msg, (⟨0, [("a", ⟨"x", 0⟩), ("b", ⟨"y", 3⟩)], 0⟩ : Cache String).Load
         (DecodeResult.fail msg) 10 =
           ((⟨0, [("a", ⟨"x", 0⟩), ("b", ⟨"y", 3⟩)], 0⟩ : Cache String), some msg))) :=
  ⟨by decide,
   load_merge_policy (⟨0, [("a", ⟨"x", 0⟩), ("b", ⟨"y", 3⟩)], 0⟩ : Cache String) 10
     [("a", ⟨"p", 0⟩), ("b", ⟨"q", 0⟩), ("c", ⟨"r", 0⟩)] (by decide)⟩

/-- C4. `Save` of a store (with the Go-map key-uniqueness invariant, and the
gob codec modelled as lossless for registered value types) followed by
`Load` of that stream into a fresh, empty store yields an entry map
observably equivalent to the original: the lookup of every key returns the
same item (same value and same expiration) as in the original store. -/
theorem save_load_roundtrip {V : Type} (c : Cache V) (now defExp gcInt : Int)
    (hnd : (mapKeys c.items).Nodup) :
    ∀ k, mapLookup k (((NewCache V defExp gcInt).Load
        (DecodeResult.ok (c.Save).data) now).1).items = mapLookup k c.items := by
  intro k
  show mapLookup k (loadMerge now (c.Save).data []) = mapLookup k c.items
  rw [Cache.Save]
  cases hml : mapLookup k c.items with
  | none =>
    rw [loadMerge_lookup_not_mem now [] (not_mem_mapKeys_of_lookup_none hml)]
    rfl
  | some v =>
    rw [loadMerge_lookup_mem now [] hnd (mem_of_mapLookup_eq_some hml)]
    rfl

/-- Witness for C4: a two-entry store (one never-expiring, one expiring far
in the future) saved and loaded into a fresh store at clock `10`. -/
theorem save_load_roundtrip_witness :
    (mapKeys (⟨2, [("a", ⟨"x", 0⟩), ("b", ⟨"y", 100⟩)], 0⟩ : Cache String).items).Nodup ∧
    (∀ k, mapLookup k (((NewCache String 0 0).Load
        (DecodeResult.ok ((⟨2, [("a", ⟨"x", 0⟩), ("b", ⟨"y", 100⟩)], 0⟩ : Cache String).Save).data)
        10).1).items
      = mapLookup k (⟨2, [("a", ⟨"x", 0⟩), ("b", ⟨"y", 100⟩)], 0⟩ : Cache String).items) :=
  ⟨by decide,
   save_load_roundtrip (⟨2, [("a", ⟨"x", 0⟩), ("b", ⟨"y", 100⟩)], 0⟩ : Cache String)
     10 0 0 (by decide)⟩

/-- C10, counterexample. The claim states that one eviction pass removes
every entry whose expiration is in the past at the time of the pass. The
entry with expiration `-5` at pass time `10` has its expiration in the past
and is nonzero, yet the pass retains it and it stays counted, refuting the
claim as stated. -/
theorem deleteExpired_keeps_negative_expiration_cex :
    ((⟨0, [("a", ⟨"x", -5⟩)], 0⟩ : Cache String).DeleteExpired 10).items
        = [("a", (⟨"x", -5⟩ : Item String))] ∧
    ((⟨0, [("a", ⟨"x", -5⟩)], 0⟩ : Cache String).DeleteExpired 10).Count = 1 ∧
    (-5 : Int) < 10 ∧ (-5 : Int) ≠ 0 := by
  decide

/-- C10, amended: after one eviction pass at clock `now`, every entry whose
expiration is positive and in the past is removed and no longer looked up,
every other entry (expiration `0`, negative expiration, or expiration not
yet reached) is retained unchanged, and `Count` drops by exactly the number
of removed entries. -/
theorem deleteExpired_removes_policy_expired {V : Type} (c : Cache V) (now : Int)
    (hnd : (mapKeys c.items).Nodup) :
    (∀ k item, mapLookup k c.items = some item →
        item.Expiration > 0 → now > item.Expiration →
        mapLookup k (c.DeleteExpired now).items = none) ∧
    (∀ k item, mapLookup k c.items = some item →
        ¬(item.Expiration > 0 ∧ now > item.Expiration) →
        mapLookup k (c.DeleteExpired now).items = some item) ∧
    (c.DeleteExpired now).Count +
        c.items.countP
          (fun kv => decide (kv.2.Expiration > 0) && decide (now > kv.2.Expiration))
      = c.Count := by
  refine ⟨?_, ?_, ?_⟩
  · intro k item h hpos hpast
    apply mapLookup_filter_drop _ hnd h
    have h1 : decide (item.Expiration > 0) = true := decide_eq_true hpos
    have h2 : decide (now > item.Expiration) = true := decide_eq_true hpast
    simp [h1, h2]
  · intro k item h hne
    apply mapLookup_filter_keep _ h
    by_cases h1 : item.Expiration > 0
    · have h2 : ¬(now > item.Expiration) := fun hh => hne ⟨h1, hh⟩
      simp [h1, h2]
    · simp [h1]
  · have hlen := length_filter_add_countP
      (fun kv => !(decide (kv.2.Expiration > 0) && decide (now > kv.2.Expiration))) c.items
    simpa [Cache.DeleteExpired, Cache.Count, Bool.not_not] using hlen

/-- Witness for C10 (amended) on a three-entry store at pass time `10`:
`"a"` (expired at `3`) is removed, `"b"` (never expires) and `"c"` (expires
at `50`) are retained, and the count drops from `3` to `2`. -/
theorem deleteExpired_removes_policy_expired_witness :
    (mapKeys (⟨0, [("a", ⟨"x", 3⟩), ("b", ⟨"y", 0⟩), ("c", ⟨"z", 50⟩)], 0⟩
        : Cache String).items).Nodup ∧
    ((∀ k item, mapLookup k (⟨0, [("a", ⟨"x", 3⟩), ("b", ⟨"y", 0⟩), ("c", ⟨"z", 50⟩)], 0⟩
          : Cache String).items = some item →
        item.Expiration > 0 → (10 : Int) > item.Expiration →
        mapLookup k ((⟨0, [("a", ⟨"x", 3⟩), ("b", ⟨"y", 0⟩), ("c", ⟨"z", 50⟩)], 0⟩
          : Cache String).DeleteExpired 10).items = none) ∧
     (∀ k item, mapLookup k (⟨0, [("a", ⟨"x", 3⟩), ("b", ⟨"y", 0⟩), ("c", ⟨"z", 50⟩)], 0⟩
          : Cache String).items = some item →
        ¬(item.Expiration > 0 ∧ (10 : Int) > item.Expiration) →
        mapLookup k ((⟨0, [("a", ⟨"x", 3⟩), ("b", ⟨"y", 0⟩), ("c", ⟨"z", 50⟩)], 0⟩
          : Cache String).DeleteExpired 10).items = some item) ∧
     ((⟨0, [("a", ⟨"x", 3⟩), ("b", ⟨"y", 0⟩), ("c", ⟨"z", 50⟩)], 0⟩
          : Cache String).DeleteExpired 10).Count +
        (⟨0, [("a", ⟨"x", 3⟩), ("b", ⟨"y", 0⟩), ("c", ⟨"z", 50⟩)], 0⟩
          : Cache String).items.countP
          (fun kv => decide (kv.2.Expiration > 0) && decide ((10 : Int) > kv.2.Expiration))
      = (⟨0, [("a", ⟨"x", 3⟩), ("b", ⟨"y", 0⟩), ("c", ⟨"z", 50⟩)], 0⟩
          : Cache String).Count) :=
  ⟨by decide,
   deleteExpired_removes_policy_expired
     (⟨0, [("a", ⟨"x", 3⟩), ("b", ⟨"y", 0⟩), ("c", ⟨"z", 50⟩)], 0⟩ : Cache String)
     10 (by decide)⟩
